import Mathlib

/-!
# Verification of the Bizpaysol ACH core

A shallow embedding of the three core services of the repository —
`backend/src/services/nachaService.ts` (fixed-width NACHA record codec and
file assembler), `backend/src/services/encryptionService.ts` (encrypted
envelope with checksum integrity), and
`backend/src/services/businessDayService.ts` (federal-holiday banking
calendar) — together with theorems settling the specification's claims.

JavaScript machine numbers are modelled as `ℚ` (amounts) and `Nat`/`Int`
(counts, day numbers); JavaScript strings as Lean `String`.
-/

namespace Bizpaysol

/-! ## JavaScript string and number primitives

The services use a small set of JavaScript operations: `padStart`/`padEnd`
followed by `substring(0, length)`, `substring(a, b)`, `split`,
`startsWith`, array `join('')`, `parseInt` on digit strings, and
`Math.round`.  Each is given its direct denotation here. -/

/-- `str.padStart(length, padChar).substring(0, length)` — the body of
`NACHAService.padLeft` (nachaService.ts lines 271-273).  The result always
has exactly `n` characters: shorter inputs are left-padded with `c`,
longer inputs are truncated to their first `n` characters. -/
def padLeft (s : String) (n : Nat) (c : Char) : String :=
  String.mk ((List.replicate (n - s.length) c ++ s.data).take n)

/-- `str.padEnd(length, padChar).substring(0, length)` — the body of
`NACHAService.padRight` (nachaService.ts lines 278-280). -/
def padRight (s : String) (n : Nat) (c : Char) : String :=
  String.mk ((s.data ++ List.replicate (n - s.length) c).take n)

/-- JavaScript `s.substring(a, b)` for `a ≤ b`: the characters at
positions `[a, b)`, clipped to the string's end. -/
def strSub (s : String) (a b : Nat) : String :=
  String.mk ((s.data.drop a).take (b - a))

/-- JavaScript array `join('')` applied to a list of field strings. -/
def joinFields (l : List String) : String :=
  String.mk (l.map String.data).flatten

/-- Extract the `w`-character field starting at position `i` of a record
line (used to state what a fixed-width record encodes). -/
def slice (s : String) (i w : Nat) : String :=
  String.mk ((s.data.drop i).take w)

/-- JavaScript `parseInt` restricted to all-digit strings (the only use
in the services: the first eight digits of a routing number). -/
def parseIntDigits (s : String) : Nat :=
  s.data.foldl (fun acc c => acc * 10 + (c.toNat - 48)) 0

/-- JavaScript `Math.round`: nearest integer, halves rounded toward
positive infinity. -/
def jsRound (q : ℚ) : ℤ := ⌊q + 1/2⌋

/-- JavaScript `String.prototype.split` with a one-character separator,
on the character list. -/
def splitChar (sep : Char) : List Char → List (List Char)
  | [] => [[]]
  | c :: cs =>
    if c = sep then [] :: splitChar sep cs
    else
      match splitChar sep cs with
      | [] => [[c]]
      | p :: ps => (c :: p) :: ps

/-- JavaScript `s.split(sep)` for a one-character separator. -/
def jsSplit (s : String) (sep : Char) : List String :=
  (splitChar sep s.data).map String.mk

/-- JavaScript `s.startsWith(pre)`. -/
def jsStartsWith (s pre : String) : Bool :=
  s.data.take pre.length == pre.data

@[simp] theorem mk_data (s : String) : String.mk s.data = s := by
  cases s; rfl

@[simp] theorem length_mk (l : List Char) : (String.mk l).length = l.length := rfl

@[simp] theorem data_mk (l : List Char) : (String.mk l).data = l := rfl

theorem data_append (s t : String) : (s ++ t).data = s.data ++ t.data := rfl

/-- `padLeft` always returns exactly `n` characters. -/
@[simp] theorem length_padLeft (s : String) (n : Nat) (c : Char) :
    (padLeft s n c).length = n := by
  unfold padLeft
  simp only [length_mk, List.length_take, List.length_append, List.length_replicate]
  have : s.length = s.data.length := rfl
  omega

/-- `padRight` always returns exactly `n` characters. -/
@[simp] theorem length_padRight (s : String) (n : Nat) (c : Char) :
    (padRight s n c).length = n := by
  unfold padRight
  simp only [length_mk, List.length_take, List.length_append, List.length_replicate]
  have : s.length = s.data.length := rfl
  omega

@[simp] theorem length_strSub (s : String) (a b : Nat) :
    (strSub s a b).length = min (b - a) (s.length - a) := by
  unfold strSub
  simp only [length_mk, List.length_take, List.length_drop]
  rfl

theorem length_joinFields (l : List String) :
    (joinFields l).length = (l.map String.length).sum := by
  unfold joinFields
  simp only [length_mk, List.length_flatten, List.map_map]
  rfl

/-! ## Data model

`ACHTransaction` (backend/src/types/index.ts): the fields the codec
reads.  The JavaScript `number` amount is modelled as `ℚ`. -/

structure ACHTransaction where
  id : String
  drRoutingNumber : String
  drAccountNumber : String
  drId : String
  drName : String
  crRoutingNumber : String
  crAccountNumber : String
  crId : String
  crName : String
  amount : ℚ
  deriving DecidableEq

/-- `NACHAConfig` (nachaService.ts lines 5-12). -/
structure NACHAConfig where
  immediateDestination : String
  immediateOrigin : String
  companyName : String
  companyId : String
  companyDiscretionaryData : Option String
  originatingDFI : String
  deriving DecidableEq

/-- The `'DR' | 'CR'` file-type flag. -/
inductive FileType where
  | DR
  | CR
  deriving DecidableEq

/-- A calendar date as used for `moment(...).format('YYMMDD')`. -/
structure YMD where
  year : Nat
  month : Nat
  day : Nat
  deriving DecidableEq

/-- Two-digit zero-padded field of `moment` formats (`YY`, `MM`, `DD`,
`HH`, `mm`); agrees with `moment` on all values these formats produce. -/
def pad2 (n : Nat) : String := padLeft (toString n) 2 '0'

/-- `moment(date).format('YYMMDD')`. -/
def formatYYMMDD (d : YMD) : String :=
  pad2 (d.year % 100) ++ pad2 d.month ++ pad2 d.day

/-- `moment().format('HHmm')`. -/
def formatHHmm (h m : Nat) : String := pad2 h ++ pad2 m

/-- The generation instant observed by `moment()` inside
`generateFileHeader` (a clock reading, passed explicitly). -/
structure Clock where
  date : YMD
  hour : Nat
  minute : Nat
  deriving DecidableEq

/-! ## Record encoders (nachaService.ts)

Each encoder is the `[...].join('')` of its field list, transcribed from
the source.  Values drawn from the environment (the clock, the random
trace-number suffix) are explicit parameters. -/

/-- Amount of one entry in minor units: `Math.round(transaction.amount *
100)` (nachaService.ts line 168). -/
def entryAmountCents (tx : ACHTransaction) : ℤ := jsRound (tx.amount * 100)

/-- Aggregate amount in minor units as computed by `generateBatchControl`
and `generateFileControl` (lines 191-192 and 222-223): the amounts are
summed in currency units first and the sum is rounded once. -/
def totalAmountCents (txs : List ACHTransaction) : ℤ :=
  jsRound ((txs.foldl (fun sum tx => sum + tx.amount) 0) * 100)

/-- `generateFileHeader` (lines 113-132).  `seq` is the file sequence
number, `now` the clock reading for the creation date/time fields. -/
def generateFileHeader (cfg : NACHAConfig) (seq : Nat) (now : Clock) : String :=
  joinFields [
    "1",
    "01",
    padLeft cfg.immediateDestination 10 ' ',
    padLeft cfg.immediateOrigin 10 ' ',
    formatYYMMDD now.date,
    formatHHmm now.hour now.minute,
    padLeft (toString seq) 1 'A',
    "094",
    "10",
    "1",
    padRight cfg.immediateDestination 23 ' ',
    padRight cfg.immediateOrigin 23 ' ',
    padRight "" 8 ' ']

/-- `generateBatchHeader` (lines 137-156). -/
def generateBatchHeader (cfg : NACHAConfig) (effectiveDate : YMD)
    (fileType : FileType) : String :=
  let serviceClassCode := if fileType = .DR then "225" else "220"
  let fileTypeStr := if fileType = .DR then "DR" else "CR"
  joinFields [
    "5",
    serviceClassCode,
    padRight cfg.companyName 16 ' ',
    padRight (cfg.companyDiscretionaryData.getD "") 20 ' ',
    cfg.companyId,
    "CCD",
    padRight (fileTypeStr ++ " PAYMENT") 10 ' ',
    padRight "" 6 ' ',
    formatYYMMDD effectiveDate,
    padRight "" 3 ' ',
    "1",
    strSub cfg.originatingDFI 0 8,
    "0000001"]

/-- `getTraceNumber` (lines 263-266); `rand7` is the value drawn by
`Math.floor(Math.random() * 10000000)`. -/
def getTraceNumber (cfg : NACHAConfig) (rand7 : Nat) : Nat :=
  parseIntDigits (strSub cfg.originatingDFI 0 8) * 10000000 + rand7

/-- `generateEntryDetail` (lines 161-183). -/
def generateEntryDetail (cfg : NACHAConfig) (tx : ACHTransaction)
    (fileType : FileType) (rand7 : Nat) : String :=
  let transactionCode := if fileType = .DR then "27" else "22"
  let routingNumber := if fileType = .DR then tx.drRoutingNumber else tx.crRoutingNumber
  let accountNumber := if fileType = .DR then tx.drAccountNumber else tx.crAccountNumber
  let individualName := if fileType = .DR then tx.drName else tx.crName
  let individualId := if fileType = .DR then tx.drId else tx.crId
  let amount := jsRound (tx.amount * 100)
  joinFields [
    "6",
    transactionCode,
    strSub routingNumber 0 8,
    strSub routingNumber 8 9,
    padLeft accountNumber 17 ' ',
    padLeft (toString amount) 10 '0',
    padLeft individualId 15 ' ',
    padRight individualName 22 ' ',
    padRight "" 2 ' ',
    "0",
    padLeft (toString (getTraceNumber cfg rand7)) 15 '0']

/-- `generateBatchControl` (lines 188-213).  Note: the aggregate amount
is always placed in the debit-total field and the credit-total field is
the zero-padded `'0'`, for both file types. -/
def generateBatchControl (cfg : NACHAConfig) (txs : List ACHTransaction)
    (fileType : FileType) : String :=
  let serviceClassCode := if fileType = .DR then "225" else "220"
  let entryCount := txs.length
  let entryHash := txs.foldl
    (fun sum tx =>
      let routingNumber := if fileType = .DR then tx.drRoutingNumber else tx.crRoutingNumber
      sum + parseIntDigits (strSub routingNumber 0 8)) 0
  joinFields [
    "8",
    serviceClassCode,
    padLeft (toString entryCount) 6 '0',
    padLeft (toString (entryHash % 10000000000)) 10 '0',
    padLeft (toString (totalAmountCents txs)) 12 '0',
    padLeft "0" 12 '0',
    cfg.companyId,
    padRight "" 19 ' ',
    padRight "" 6 ' ',
    strSub cfg.originatingDFI 0 8,
    "0000001"]

/-- `generateFileControl` (lines 218-242). -/
def generateFileControl (cfg : NACHAConfig) (txs : List ACHTransaction) : String :=
  let batchCount := 1
  let blockCount := (5 + txs.length + 9) / 10
  let entryCount := txs.length
  let entryHash := txs.foldl
    (fun sum tx =>
      sum + parseIntDigits (strSub tx.drRoutingNumber 0 8)
          + parseIntDigits (strSub tx.crRoutingNumber 0 8)) 0
  joinFields [
    "9",
    padLeft (toString batchCount) 6 '0',
    padLeft (toString blockCount) 6 '0',
    padLeft (toString entryCount) 8 '0',
    padLeft (toString (entryHash % 10000000000)) 10 '0',
    padLeft (toString (totalAmountCents txs)) 12 '0',
    padLeft (toString (totalAmountCents txs)) 12 '0',
    padRight "" 39 ' ']

/-- The `transactions.forEach` loop of `generateFileContent` (lines
88-90): one entry-detail line per transaction, in input order; `rnd i`
is the random trace suffix drawn for the `i`-th entry. -/
def entryLines (cfg : NACHAConfig) (fileType : FileType) (rnd : Nat → Nat) :
    Nat → List ACHTransaction → List String
  | _, [] => []
  | i, tx :: rest =>
    generateEntryDetail cfg tx fileType (rnd i) :: entryLines cfg fileType rnd (i + 1) rest

/-- The `lines` array of `generateFileContent` (lines 74-105) after block
padding: header, batch header, entry details, batch control, file
control, then filler lines of 94 `'9'`s up to a multiple of ten lines. -/
def fileLines (cfg : NACHAConfig) (txs : List ACHTransaction)
    (effectiveDate : YMD) (fileType : FileType) (seq : Nat) (now : Clock)
    (rnd : Nat → Nat) : List String :=
  let lines :=
    generateFileHeader cfg seq now ::
    generateBatchHeader cfg effectiveDate fileType ::
    entryLines cfg fileType rnd 0 txs ++
    [generateBatchControl cfg txs fileType, generateFileControl cfg txs]
  let recordCount := lines.length
  let paddingNeeded := 10 - recordCount % 10
  if paddingNeeded ≠ 10 then
    lines ++ List.replicate paddingNeeded (String.mk (List.replicate 94 '9'))
  else
    lines

/-- `generateFileContent` (line 107): the lines joined with `'\n'`. -/
def generateFileContent (cfg : NACHAConfig) (txs : List ACHTransaction)
    (effectiveDate : YMD) (fileType : FileType) (seq : Nat) (now : Clock)
    (rnd : Nat → Nat) : String :=
  String.intercalate "\n"
    (fileLines cfg txs effectiveDate fileType seq now rnd)

/-! ## Concrete fixtures

A sample configuration and transactions, used to instantiate the
universally quantified theorems below and to evaluate the generators at
the inputs on which the implementation deviates from the specified
behaviour. -/

def sampleCfg : NACHAConfig :=
  { immediateDestination := "123456789"
    immediateOrigin := "987654321"
    companyName := "ACME CORP"
    companyId := "1234567890"
    companyDiscretionaryData := none
    originatingDFI := "12345678" }

def sampleTx : ACHTransaction :=
  { id := "tx1"
    drRoutingNumber := "021000021"
    drAccountNumber := "1234567"
    drId := "DRID1"
    drName := "ALICE"
    crRoutingNumber := "026009593"
    crAccountNumber := "7654321"
    crId := "CRID1"
    crName := "BOB"
    amount := 100 }

/-- A transaction whose amount, 0.204 currency units, is not a whole
number of cents (the transaction model does not require amounts to be
multiples of a cent). -/
def fracTx : ACHTransaction :=
  { sampleTx with id := "tx2", amount := 51 / 250 }

/-- A transaction whose amount 1.23 is a whole number of cents. -/
def centTx : ACHTransaction :=
  { sampleTx with id := "tx3", amount := 123 / 100 }

def sampleEff : YMD := ⟨2024, 3, 15⟩

def sampleClock : Clock := ⟨⟨2024, 3, 14⟩, 9, 30⟩

/-! ## Encryption service model (encryptionService.ts)

The envelope logic is embedded with its cryptographic and serialization
primitives as explicit parameters: `enc`/`dec` stand for the
AES-256-CBC `cipher`/`decipher` pair under the service key and a given
IV, `hash` for SHA-256 hex, and `serialize`/`deserialize` for
`JSON.stringify`/`JSON.parse` of the payload object.  The envelope
format, the `FILE:` marker handling, the `split(':')` parsing, the
JavaScript falsiness checks and the checksum comparison — the logic of
the service itself — are embedded concretely. -/

/-- The metadata object built by `encryptNACHAFile` (lines 136-142). -/
structure NACHAMetadata where
  type : String
  transactionIds : List String
  effectiveDate : String
  recordCount : Nat
  checksum : String
  deriving DecidableEq

/-- The `fileData` payload object of `encryptFileContent` (lines
76-81). -/
structure FileData where
  content : String
  metadata : NACHAMetadata
  timestamp : String
  version : String
  deriving DecidableEq

/-- The primitives of one seal operation: the hex of the random IV drawn
for the call, the cipher pair, the hash, and payload serialization.
`dec` and `deserialize` return `none` where the JavaScript primitives
throw. -/
structure CryptoPrims where
  ivHex : String
  enc : String → String
  dec : String → String → Option String
  hash : String → String
  serialize : FileData → String
  deserialize : String → Option FileData

/-- `encryptFileContent` (lines 70-92): serialize the payload, encrypt,
and prefix the marker and IV.  `timestamp` is the
`new Date().toISOString()` reading. -/
def encryptFileContent (P : CryptoPrims) (content : String)
    (metadata : NACHAMetadata) (timestamp : String) : String :=
  let fileData : FileData := ⟨content, metadata, timestamp, "1.0"⟩
  "FILE:" ++ P.ivHex ++ ":" ++ P.enc (P.serialize fileData)

/-- `decryptFileContent` (lines 97-130).  All raised errors carry the
`File decryption failed:` prefix added by the surrounding `catch`; the
inner messages for decipher and parse failures (which depend on the
crypto library) are abbreviated.  Note the JavaScript falsiness checks:
an empty `ivHex`/`encrypted` part and an empty `content` field are
rejected. -/
def decryptFileContent (P : CryptoPrims) (s : String) : Except String FileData :=
  if jsStartsWith s "FILE:" then
    let parts := jsSplit s ':'
    let ivHex := (parts.get? 1).getD ""
    let encrypted := (parts.get? 2).getD ""
    if ivHex = "" ∨ encrypted = "" then
      .error "File decryption failed: Invalid encrypted file data format"
    else
      match P.dec ivHex encrypted with
      | none => .error "File decryption failed: decipher error"
      | some plain =>
        match P.deserialize plain with
        | none => .error "File decryption failed: parse error"
        | some fileData =>
          if fileData.content = "" then
            .error "File decryption failed: Invalid file data structure"
          else
            .ok fileData
  else
    .error "File decryption failed: Invalid encrypted file format"

/-- The metadata `encryptNACHAFile` attaches (lines 136-142). -/
def nachaMetadataFor (P : CryptoPrims) (content : String)
    (transactionIds : List String) (effectiveDateISO : String) : NACHAMetadata :=
  ⟨"NACHA", transactionIds, effectiveDateISO,
    (jsSplit content '\n').length, P.hash content⟩

/-- `encryptNACHAFile` (lines 135-145). -/
def encryptNACHAFile (P : CryptoPrims) (content : String)
    (transactionIds : List String) (effectiveDateISO timestamp : String) : String :=
  encryptFileContent P content
    (nachaMetadataFor P content transactionIds effectiveDateISO) timestamp

/-- The payload object that sealing `x` builds (and that a faithful
serialization round-trip must recover). -/
def nachaPayload (P : CryptoPrims) (x : String) (transactionIds : List String)
    (effectiveDateISO timestamp : String) : FileData :=
  ⟨x, nachaMetadataFor P x transactionIds effectiveDateISO, timestamp, "1.0"⟩

/-- The result of `decryptNACHAFile` (lines 150-162). -/
structure DecryptedNACHA where
  content : String
  metadata : NACHAMetadata
  isValid : Bool
  deriving DecidableEq

/-- `decryptNACHAFile` (lines 150-162): decrypt, then compare the
carried checksum with the recomputed hash of the content. -/
def decryptNACHAFile (P : CryptoPrims) (s : String) :
    Except String DecryptedNACHA :=
  match decryptFileContent P s with
  | .error e => .error e
  | .ok d => .ok ⟨d.content, d.metadata, d.metadata.checksum == P.hash d.content⟩

/-- `NACHAService.getNACHAFileContent` (nachaService.ts lines 296-305):
decrypt only when the content carries the marker and an encryption
service is configured; otherwise return the content as-is. -/
def getNACHAFileContent (encSvc : Option CryptoPrims) (content : String) :
    Except String String :=
  match encSvc with
  | some P =>
    if jsStartsWith content "FILE:" then
      (decryptNACHAFile P content).map (fun d => d.content)
    else
      .ok content
  | none => .ok content

/-- The `{isValid, errors}` report of `validateNACHAFile`. -/
structure ValidationResult where
  isValid : Bool
  errors : List String
  deriving DecidableEq

/-- The per-line length check of `validateNACHAFile` (lines 391-395):
every line except possibly the last must be exactly 94 characters. -/
def lineLengthErrors (lines : List String) : List String :=
  (List.range lines.length).filterMap (fun i =>
    if ((lines.get? i).getD "").length ≠ 94 ∧ i < lines.length - 1 then
      some ("Line " ++ toString (i + 1) ++ " must be exactly 94 characters")
    else
      none)

/-- `validateNACHAFile` (lines 372-401). -/
def validateNACHAFile (content : String) : ValidationResult :=
  let lines := jsSplit content '\n'
  let errors :=
    (if lines.length < 4 then
      ["File must have at least 4 records (header, batch header, batch control, file control)"]
     else []) ++
    (if lines.length > 0 ∧ ¬ jsStartsWith ((lines.get? 0).getD "") "1" then
      ["First record must be File Header (type 1)"]
     else []) ++
    (if lines.length > 1 ∧ ¬ jsStartsWith ((lines.get? 1).getD "") "5" then
      ["Second record must be Batch Header (type 5)"]
     else []) ++
    lineLengthErrors lines
  ⟨errors.length == 0, errors⟩

/-- The report of `validateNACHAFileComplete`.  The TypeScript function
returns an object whose `metadata` field is either absent or the empty
object `{}` (both modelled as `none`) or the decrypted metadata, and
whose `integrityValid` field is either absent (`none`) or a boolean. -/
structure CompleteValidationResult where
  isValid : Bool
  errors : List String
  isEncrypted : Bool
  metadata : Option NACHAMetadata
  integrityValid : Option Bool
  deriving DecidableEq

/-- `validateNACHAFileComplete` (lines 310-367). -/
def validateNACHAFileComplete (encSvc : Option CryptoPrims) (content : String) :
    CompleteValidationResult :=
  if jsStartsWith content "FILE:" then
    match encSvc with
    | none =>
      ⟨false, ["Encrypted file detected but no encryption service available"],
        true, none, none⟩
    | some P =>
      match decryptNACHAFile P content with
      | .error e => ⟨false, ["Decryption failed: " ++ e], true, none, some false⟩
      | .ok d =>
        if d.isValid then
          let v := validateNACHAFile d.content
          ⟨v.isValid, v.errors, true, some d.metadata, some true⟩
        else
          ⟨false, ["File integrity check failed - content may be corrupted"],
            true, some d.metadata, some false⟩
  else
    let v := validateNACHAFile content
    ⟨v.isValid, v.errors, false, none, some true⟩

/-! ## Toy cryptographic primitives

Concrete instantiations of `CryptoPrims` used to evaluate the envelope
logic on closed inputs.  Each is exact on the single payload it is used
with: the cipher pair inverts, the serializer round-trips, and the
ciphertext and IV are non-empty and colon-free — so any failure
exhibited with them is a failure of the envelope logic itself. -/

/-- The payload sealing the empty string builds (note `recordCount` is 1
because `''.split('\n')` is `['']`). -/
def emptyPayload : FileData :=
  ⟨"", ⟨"NACHA", [], "2024-03-15", 1, "h0"⟩, "T0", "1.0"⟩

def toyPrims : CryptoPrims :=
  { ivHex := "aa"
    enc := fun _ => "cc"
    dec := fun iv ct => if iv = "aa" ∧ ct = "cc" then some "SER0" else none
    hash := fun _ => "h0"
    serialize := fun _ => "SER0"
    deserialize := fun s => if s = "SER0" then some emptyPayload else none }

/-- The payload sealing `"PLAIN"` builds under `toyPrimsW`. -/
def plainPayload : FileData :=
  ⟨"PLAIN", ⟨"NACHA", ["t1"], "2024-03-15", 1, "h1"⟩, "T1", "1.0"⟩

def toyPrimsW : CryptoPrims :=
  { ivHex := "bb"
    enc := fun _ => "dd"
    dec := fun iv ct => if iv = "bb" ∧ ct = "dd" then some "SER1" else none
    hash := fun _ => "h1"
    serialize := fun _ => "SER1"
    deserialize := fun s => if s = "SER1" then some plainPayload else none }

/-! ## Business-day calendar model (businessDayService.ts)

Dates are modelled as proleptic-Gregorian day numbers (days since
1970-01-01), the day-precision denotation of the `moment` objects the
service manipulates.  `moment.format('YYYY-MM-DD')` is injective on
calendar dates, so the service's holiday comparison by formatted string
equals day-number equality, and the holiday set is carried as a list of
day numbers. -/

/-- Day number of the civil date `year-month-day` (months 1-12) relative
to 1970-01-01, proleptic Gregorian (Hinnant's `days_from_civil`). -/
def daysFromCivil (y m d : Int) : Int :=
  let y' := if m ≤ 2 then y - 1 else y
  let era := Int.fdiv y' 400
  let yoe := y' - era * 400
  let mp := (m + 9) % 12
  let doy := Int.fdiv (153 * mp + 2) 5 + d - 1
  let doe := yoe * 365 + Int.fdiv yoe 4 - Int.fdiv yoe 100 + doy
  era * 146097 + doe - 719468

/-- Inverse of `daysFromCivil` (Hinnant's `civil_from_days`):
`(year, month, day)` of a day number. -/
def civilFromDays (z : Int) : Int × Int × Int :=
  let z' := z + 719468
  let era := Int.fdiv z' 146097
  let doe := z' - era * 146097
  let yoe := Int.fdiv (doe - Int.fdiv doe 1460 + Int.fdiv doe 36524 - Int.fdiv doe 146096) 365
  let y := yoe + era * 400
  let doy := doe - (365 * yoe + Int.fdiv yoe 4 - Int.fdiv yoe 100)
  let mp := Int.fdiv (5 * doy + 2) 153
  let d := doy - Int.fdiv (153 * mp + 2) 5 + 1
  let m := mp + (if mp < 10 then 3 else -9)
  (if m ≤ 2 then y + 1 else y, m, d)

/-- `moment.day()`: day of week, 0 = Sunday … 6 = Saturday
(1970-01-01 was a Thursday, weekday 4). -/
def weekday (z : Int) : Int := (z + 4) % 7

/-- The `moment.day(target)` setter: the date with weekday `target`
inside the same Sunday-to-Saturday week as `z`. -/
def momentSetDay (z target : Int) : Int := z - weekday z + target

/-- `moment.date()`: the day of the month. -/
def dayOfMonth (z : Int) : Int := (civilFromDays z).2.2

def padIntTo (n : Int) (w : Nat) : String := padLeft (toString n) w '0'

/-- `moment.format('YYYY-MM-DD')`. -/
def formatDate (z : Int) : String :=
  let c := civilFromDays z
  padIntTo c.1 4 ++ "-" ++ padIntTo c.2.1 2 ++ "-" ++ padIntTo c.2.2 2

/-- `getMLKDay` (businessDayService.ts lines 29-35): start at January 1,
apply the `day(1)` setter (the Monday of the week containing the 1st),
add a week when the result's day-of-month exceeds 1, then add 2 weeks. -/
def getMLKDayZ (year : Int) : Int :=
  let jan := daysFromCivil year 1 1
  let firstMonday := momentSetDay jan 1
  let firstMonday' := if dayOfMonth firstMonday > 1 then firstMonday + 7 else firstMonday
  firstMonday' + 14

def getMLKDay (year : Int) : String := formatDate (getMLKDayZ year)

/-- `getPresidentsDay` (lines 37-43): the same algorithm on February. -/
def getPresidentsDayZ (year : Int) : Int :=
  let feb := daysFromCivil year 2 1
  let firstMonday := momentSetDay feb 1
  let firstMonday' := if dayOfMonth firstMonday > 1 then firstMonday + 7 else firstMonday
  firstMonday' + 14

def getPresidentsDay (year : Int) : String := formatDate (getPresidentsDayZ year)

/-- `getMemorialDay` (lines 45-49): the `day(1)` setter applied to
May 31 (the Monday of the week containing May 31). -/
def getMemorialDayZ (year : Int) : Int :=
  momentSetDay (daysFromCivil year 5 31) 1

def getMemorialDay (year : Int) : String := formatDate (getMemorialDayZ year)

/-- `getLaborDay` (lines 51-57). -/
def getLaborDayZ (year : Int) : Int :=
  let sep := daysFromCivil year 9 1
  let firstMonday := momentSetDay sep 1
  if dayOfMonth firstMonday > 1 then firstMonday + 7 else firstMonday

def getLaborDay (year : Int) : String := formatDate (getLaborDayZ year)

/-- `getColumbusDay` (lines 59-65). -/
def getColumbusDayZ (year : Int) : Int :=
  let oct := daysFromCivil year 10 1
  let firstMonday := momentSetDay oct 1
  let firstMonday' := if dayOfMonth firstMonday > 1 then firstMonday + 7 else firstMonday
  firstMonday' + 7

def getColumbusDay (year : Int) : String := formatDate (getColumbusDayZ year)

/-- `getThanksgiving` (lines 67-73): the same algorithm on November
with target weekday Thursday (4), then add 3 weeks. -/
def getThanksgivingZ (year : Int) : Int :=
  let nov := daysFromCivil year 11 1
  let firstThursday := momentSetDay nov 4
  let firstThursday' := if dayOfMonth firstThursday > 1 then firstThursday + 7 else firstThursday
  firstThursday' + 21

def getThanksgiving (year : Int) : String := formatDate (getThanksgivingZ year)

/-- `initializeFederalHolidays` (lines 11-27): the ten holiday dates of
the construction year, as day numbers. -/
def federalHolidays (year : Int) : List Int :=
  [daysFromCivil year 1 1,
   getMLKDayZ year,
   getPresidentsDayZ year,
   getMemorialDayZ year,
   daysFromCivil year 7 4,
   getLaborDayZ year,
   getColumbusDayZ year,
   daysFromCivil year 11 11,
   getThanksgivingZ year,
   daysFromCivil year 12 25]

/-- `isBusinessDay` (lines 75-86): false on Saturday/Sunday, otherwise
true unless the date is in the holiday set. -/
def isBusinessDay (H : List Int) (z : Int) : Bool :=
  if weekday z = 0 ∨ weekday z = 6 then false
  else decide (z ∉ H)

/-- A strict upper bound on the holiday set (used only to show the
skip-forward loop terminates). -/
def holidayBound (H : List Int) : Int := H.foldr (fun h acc => max (h + 1) acc) 0

/-- A strict lower bound on the holiday set (used only to show the
skip-backward loop terminates). -/
def holidayLower (H : List Int) : Int := H.foldr (fun h acc => min (h - 1) acc) 0

theorem lt_holidayBound (H : List Int) : ∀ h ∈ H, h < holidayBound H := by
  induction H with
  | nil => intro h hm; simp at hm
  | cons a t ih =>
    intro h hm
    have hb : holidayBound (a :: t) = max (a + 1) (holidayBound t) := rfl
    rcases List.mem_cons.mp hm with rfl | hm'
    · omega
    · have := ih h hm'
      omega

theorem holidayLower_lt (H : List Int) : ∀ h ∈ H, holidayLower H < h := by
  induction H with
  | nil => intro h hm; simp at hm
  | cons a t ih =>
    intro h hm
    have hb : holidayLower (a :: t) = min (a - 1) (holidayLower t) := rfl
    rcases List.mem_cons.mp hm with rfl | hm'
    · omega
    · have := ih h hm'
      omega

/-- The skip-forward loop of `getNextBusinessDay` always finds a
business day: a Monday beyond both `z` and every holiday qualifies. -/
theorem exists_business_above (H : List Int) (z : Int) :
    ∃ k : Nat, isBusinessDay H (z + 1 + (k : Int)) = true := by
  set m := max (z + 1) (holidayBound H) with hm
  set e := m + (4 - m) % 7 with he
  have hbounds : m ≤ e ∧ e < m + 7 := by constructor <;> omega
  refine ⟨(e - (z + 1)).toNat, ?_⟩
  have hcast : z + 1 + ((e - (z + 1)).toNat : Int) = e := by omega
  rw [hcast]
  unfold isBusinessDay
  have hwd : weekday e = 1 := by unfold weekday; omega
  rw [hwd, if_neg (by norm_num)]
  simp only [decide_eq_true_eq]
  intro hmem
  have := lt_holidayBound H e hmem
  omega

/-- The skip-backward loop of `getPreviousBusinessDay` always finds a
business day. -/
theorem exists_business_below (H : List Int) (z : Int) :
    ∃ k : Nat, isBusinessDay H (z - 1 - (k : Int)) = true := by
  set m := min (z - 1) (holidayLower H) with hm
  set e := m - (m - 4) % 7 with he
  have hbounds : e ≤ m ∧ m - 7 < e := by constructor <;> omega
  refine ⟨(z - 1 - e).toNat, ?_⟩
  have hcast : z - 1 - ((z - 1 - e).toNat : Int) = e := by omega
  rw [hcast]
  unfold isBusinessDay
  have hwd : weekday e = 1 := by unfold weekday; omega
  rw [hwd, if_neg (by norm_num)]
  simp only [decide_eq_true_eq]
  intro hmem
  have := holidayLower_lt H e hmem
  omega

/-- `getNextBusinessDay` (lines 88-96): step forward one day at a time
until a business day is reached — the least business day after `z`. -/
def getNextBusinessDay (H : List Int) (z : Int) : Int :=
  z + 1 + (Nat.find (exists_business_above H z) : Int)

/-- `getPreviousBusinessDay` (lines 98-106): step backward one day at a
time until a business day is reached — the greatest business day before
`z`. -/
def getPreviousBusinessDay (H : List Int) (z : Int) : Int :=
  z - 1 - (Nat.find (exists_business_below H z) : Int)

/-- `addBusinessDays` (lines 108-120): the loop advances one day at a
time and counts business days; each increment of `addedDays` happens
exactly at the next business day, so the loop's denotation is the
`n`-fold iterate of `getNextBusinessDay`. -/
def addBusinessDays (H : List Int) (z : Int) : Nat → Int
  | 0 => z
  | n + 1 => addBusinessDays H (getNextBusinessDay H z) n

/-- Number of business days `e` with `a < e ≤ b`. -/
def countBusinessDays (H : List Int) (a b : Int) : Nat :=
  ((List.range (b - a).toNat).map (fun (k : Nat) => a + 1 + (k : Int))).countP
    (fun e => isBusinessDay H e)

/-- The specification's nth-weekday rule: the first day of the month
with the target weekday. -/
def firstWeekdayOfMonth (year month target : Int) : Int :=
  let f := daysFromCivil year month 1
  f + (target - weekday f) % 7

/-- The specification's nth-weekday rule: first occurrence plus
`(n-1)` weeks. -/
def nthWeekdayOfMonth (year month target n : Int) : Int :=
  firstWeekdayOfMonth year month target + 7 * (n - 1)

/-- The specification's rule for Memorial Day: the last Monday of May. -/
def lastMondayOfMay (year : Int) : Int :=
  let l := daysFromCivil year 5 31
  l - (weekday l - 1) % 7

/-! ## Record line lengths -/

@[simp] theorem length_pad2 (n : Nat) : (pad2 n).length = 2 := length_padLeft ..

@[simp] theorem length_formatYYMMDD (d : YMD) : (formatYYMMDD d).length = 6 := by
  unfold formatYYMMDD
  simp [String.length_append]

@[simp] theorem length_formatHHmm (h m : Nat) : (formatHHmm h m).length = 4 := by
  unfold formatHHmm
  simp [String.length_append]

theorem length_generateFileHeader (cfg : NACHAConfig) (seq : Nat) (now : Clock) :
    (generateFileHeader cfg seq now).length = 94 := by
  unfold generateFileHeader
  rw [length_joinFields]
  simp
  decide

theorem length_generateBatchHeader (cfg : NACHAConfig) (eff : YMD) (ft : FileType)
    (hcid : cfg.companyId.length = 10) (hdfi : 8 ≤ cfg.originatingDFI.length) :
    (generateBatchHeader cfg eff ft).length = 94 := by
  unfold generateBatchHeader
  rw [length_joinFields]
  cases ft <;> simp [hcid, Nat.min_eq_left hdfi] <;> decide

theorem length_generateEntryDetail (cfg : NACHAConfig) (tx : ACHTransaction)
    (ft : FileType) (rand7 : Nat)
    (hdr : tx.drRoutingNumber.length = 9) (hcr : tx.crRoutingNumber.length = 9) :
    (generateEntryDetail cfg tx ft rand7).length = 94 := by
  unfold generateEntryDetail
  rw [length_joinFields]
  cases ft <;> simp [hdr, hcr] <;> decide

theorem length_generateBatchControl (cfg : NACHAConfig) (txs : List ACHTransaction)
    (ft : FileType)
    (hcid : cfg.companyId.length = 10) (hdfi : 8 ≤ cfg.originatingDFI.length) :
    (generateBatchControl cfg txs ft).length = 94 := by
  unfold generateBatchControl
  rw [length_joinFields]
  cases ft <;> simp [hcid, Nat.min_eq_left hdfi] <;> decide

theorem length_generateFileControl (cfg : NACHAConfig) (txs : List ACHTransaction) :
    (generateFileControl cfg txs).length = 94 := by
  unfold generateFileControl
  rw [length_joinFields]
  simp
  decide

theorem mem_entryLines (cfg : NACHAConfig) (ft : FileType) (rnd : Nat → Nat) :
    ∀ (i : Nat) (txs : List ACHTransaction) (line : String),
      line ∈ entryLines cfg ft rnd i txs →
      ∃ tx ∈ txs, ∃ r, line = generateEntryDetail cfg tx ft r
  | _, [], _, h => by simp [entryLines] at h
  | i, tx :: rest, line, h => by
    rw [entryLines] at h
    rcases List.mem_cons.mp h with h | h
    · exact ⟨tx, List.mem_cons_self .., rnd i, h⟩
    · obtain ⟨tx', htx', r, hr⟩ := mem_entryLines cfg ft rnd (i + 1) rest line h
      exact ⟨tx', List.mem_cons_of_mem _ htx', r, hr⟩

theorem length_entryLines (cfg : NACHAConfig) (ft : FileType) (rnd : Nat → Nat) :
    ∀ (i : Nat) (txs : List ACHTransaction),
      (entryLines cfg ft rnd i txs).length = txs.length
  | _, [] => rfl
  | i, _ :: rest => by
    rw [entryLines]
    simp [length_entryLines cfg ft rnd (i + 1) rest]

/-- C2: every line of the generated file content is exactly 94
characters and the number of lines is a multiple of 10, whenever the
routing numbers are exactly 9 digits, the configured `companyId` is
exactly 10 characters, the configured `originatingDFI` has at least 8
characters, and each amount has at most 10 digits in minor units. -/
theorem generateFileContent_line_lengths (cfg : NACHAConfig)
    (txs : List ACHTransaction) (eff : YMD) (ft : FileType) (seq : Nat)
    (now : Clock) (rnd : Nat → Nat)
    (hroute : ∀ tx ∈ txs,
      (tx.drRoutingNumber.length = 9 ∧ ∀ c ∈ tx.drRoutingNumber.data, c.isDigit) ∧
      (tx.crRoutingNumber.length = 9 ∧ ∀ c ∈ tx.crRoutingNumber.data, c.isDigit))
    (hcid : cfg.companyId.length = 10)
    (hdfi : 8 ≤ cfg.originatingDFI.length)
    (hamt : ∀ tx ∈ txs, (jsRound (tx.amount * 100)).natAbs < 10 ^ 10) :
    (∀ line ∈ fileLines cfg txs eff ft seq now rnd, line.length = 94) ∧
    (fileLines cfg txs eff ft seq now rnd).length % 10 = 0 := by
  unfold fileLines
  set base : List String :=
    generateFileHeader cfg seq now ::
    generateBatchHeader cfg eff ft ::
    entryLines cfg ft rnd 0 txs ++
    [generateBatchControl cfg txs ft, generateFileControl cfg txs] with hbase
  have hbaseLen : base.length = txs.length + 4 := by
    simp [hbase, length_entryLines]
  have hbaseMem : ∀ line ∈ base, line.length = 94 := by
    intro line hline
    rw [hbase] at hline
    rcases List.mem_cons.mp hline with rfl | hline
    · exact length_generateFileHeader ..
    rcases List.mem_cons.mp hline with rfl | hline
    · exact length_generateBatchHeader cfg eff ft hcid hdfi
    rcases List.mem_append.mp hline with hline | hline
    · obtain ⟨tx, htx, r, rfl⟩ := mem_entryLines cfg ft rnd 0 txs line hline
      exact length_generateEntryDetail cfg tx ft r
        (hroute tx htx).1.1 (hroute tx htx).2.1
    rcases List.mem_cons.mp hline with rfl | hline
    · exact length_generateBatchControl cfg txs ft hcid hdfi
    rcases List.mem_cons.mp hline with rfl | hline
    · exact length_generateFileControl ..
    · simp at hline
  by_cases hpad : 10 - base.length % 10 ≠ 10
  · rw [if_pos hpad]
    constructor
    · intro line hline
      rcases List.mem_append.mp hline with hline | hline
      · exact hbaseMem line hline
      · rw [List.eq_of_mem_replicate hline]
        rfl
    · rw [List.length_append, List.length_replicate]
      omega
  · rw [if_neg hpad]
    exact ⟨hbaseMem, by omega⟩

/-- The sample transaction's amount in minor units. -/
theorem sampleTx_amount_cents : jsRound (sampleTx.amount * 100) = 10000 := by
  norm_num [sampleTx, jsRound]

/-- Witness for `generateFileContent_line_lengths` at a concrete
configuration and single-transaction list. -/
theorem generateFileContent_line_lengths_witness :
    (∀ line ∈ fileLines sampleCfg [sampleTx] sampleEff .DR 1 sampleClock
        (fun _ => 1234567), line.length = 94) ∧
    (fileLines sampleCfg [sampleTx] sampleEff .DR 1 sampleClock
        (fun _ => 1234567)).length % 10 = 0 :=
  generateFileContent_line_lengths sampleCfg [sampleTx] sampleEff .DR 1
    sampleClock (fun _ => 1234567)
    (by decide) (by decide) (by decide)
    (by
      intro tx htx
      rw [List.mem_singleton] at htx
      subst htx
      rw [sampleTx_amount_cents]
      decide)

/-! ## Extracting fields from encoded records -/

theorem drop_length_add {α : Type} (l₁ l₂ : List α) (i : Nat) :
    (l₁ ++ l₂).drop (l₁.length + i) = l₂.drop i := by
  induction l₁ with
  | nil => simp
  | cons a t ih => simpa [Nat.succ_add] using ih

/-- Extracting the first field of an encoded record. -/
theorem slice_joinFields_at_head (f : String) (l : List String) :
    slice (joinFields (f :: l)) 0 f.length = f := by
  show String.mk (((f.data ++ ((l.map String.data)).flatten).drop 0).take f.length) = f
  rw [List.drop_zero]
  have h : List.take f.length (f.data ++ (l.map String.data).flatten) = f.data :=
    List.take_left' rfl
  rw [h, mk_data]

/-- Skipping over the first field of an encoded record when extracting a
later one. -/
theorem slice_joinFields_skip (a : String) (l : List String) (n i w : Nat)
    (ha : a.length = n) (h : n ≤ i) :
    slice (joinFields (a :: l)) i w = slice (joinFields l) (i - n) w := by
  subst ha
  show String.mk (((a.data ++ ((l.map String.data)).flatten).drop i).take w)
    = String.mk ((((l.map String.data)).flatten.drop (i - a.length)).take w)
  have hi : i = a.data.length + (i - a.length) := by
    have : a.length = a.data.length := rfl
    omega
  conv_lhs => rw [hi]
  rw [drop_length_add]

/-- `slice_joinFields_at_head` with the offset and width supplied as
separate equations, for direct application by rewriting. -/
theorem slice_joinFields_head (f : String) (l : List String) (i w : Nat)
    (hi : i = 0) (hw : f.length = w) :
    slice (joinFields (f :: l)) i w = f := by
  subst hi
  subst hw
  exact slice_joinFields_at_head f l

theorem foldl_amount (txs : List ACHTransaction) (init : ℚ) :
    txs.foldl (fun sum tx => sum + tx.amount) init
      = init + (txs.map ACHTransaction.amount).sum := by
  induction txs generalizing init with
  | nil => simp
  | cons tx rest ih => simp [List.foldl, ih, add_assoc]

/-- The aggregate of `generateBatchControl`/`generateFileControl` as a
function of the sum of the amounts. -/
theorem totalAmountCents_eq (txs : List ACHTransaction) :
    totalAmountCents txs = jsRound ((txs.map ACHTransaction.amount).sum * 100) := by
  unfold totalAmountCents
  rw [foldl_amount, zero_add]

theorem foldl_hash_dr (txs : List ACHTransaction) (init : Nat) :
    txs.foldl (fun sum tx => sum + parseIntDigits (strSub tx.drRoutingNumber 0 8)) init
      = init + (txs.map (fun tx => parseIntDigits (strSub tx.drRoutingNumber 0 8))).sum := by
  induction txs generalizing init with
  | nil => simp
  | cons tx rest ih => simp [List.foldl, ih, Nat.add_assoc]

theorem foldl_hash_cr (txs : List ACHTransaction) (init : Nat) :
    txs.foldl (fun sum tx => sum + parseIntDigits (strSub tx.crRoutingNumber 0 8)) init
      = init + (txs.map (fun tx => parseIntDigits (strSub tx.crRoutingNumber 0 8))).sum := by
  induction txs generalizing init with
  | nil => simp
  | cons tx rest ih => simp [List.foldl, ih, Nat.add_assoc]

theorem foldl_hash_fileControl (txs : List ACHTransaction) (init : Nat) :
    txs.foldl (fun sum tx => sum + parseIntDigits (strSub tx.drRoutingNumber 0 8)
      + parseIntDigits (strSub tx.crRoutingNumber 0 8)) init
      = init + (txs.map (fun tx => parseIntDigits (strSub tx.drRoutingNumber 0 8)
          + parseIntDigits (strSub tx.crRoutingNumber 0 8))).sum := by
  induction txs generalizing init with
  | nil => simp
  | cons tx rest ih => simp [List.foldl, ih]; omega

/-- The debit-total field of a BatchControl record (positions 20-31)
always carries the aggregate amount, for both file types. -/
theorem slice_batchControl_debit (cfg : NACHAConfig) (txs : List ACHTransaction)
    (ft : FileType) :
    slice (generateBatchControl cfg txs ft) 20 12
      = padLeft (toString (totalAmountCents txs)) 12 '0' := by
  simp only [generateBatchControl]
  rw [slice_joinFields_skip _ _ 1 _ _ (by decide) (by decide)]
  rw [slice_joinFields_skip _ _ 3 _ _ (by cases ft <;> decide) (by decide)]
  rw [slice_joinFields_skip _ _ 6 _ _ (by simp) (by decide)]
  rw [slice_joinFields_skip _ _ 10 _ _ (by simp) (by decide)]
  rw [slice_joinFields_head _ _ _ _ (by decide) (by simp)]

/-- The credit-total field of a BatchControl record (positions 32-43) is
always the zero-padded `'0'`, for both file types. -/
theorem slice_batchControl_credit (cfg : NACHAConfig) (txs : List ACHTransaction)
    (ft : FileType) :
    slice (generateBatchControl cfg txs ft) 32 12 = padLeft "0" 12 '0' := by
  simp only [generateBatchControl]
  rw [slice_joinFields_skip _ _ 1 _ _ (by decide) (by decide)]
  rw [slice_joinFields_skip _ _ 3 _ _ (by cases ft <;> decide) (by decide)]
  rw [slice_joinFields_skip _ _ 6 _ _ (by simp) (by decide)]
  rw [slice_joinFields_skip _ _ 10 _ _ (by simp) (by decide)]
  rw [slice_joinFields_skip _ _ 12 _ _ (by simp) (by decide)]
  rw [slice_joinFields_head _ _ _ _ (by decide) (by simp)]

/-- The batch-count field of a FileControl record (positions 1-6). -/
theorem slice_fileControl_batchCount (cfg : NACHAConfig)
    (txs : List ACHTransaction) :
    slice (generateFileControl cfg txs) 1 6 = "000001" := by
  simp only [generateFileControl]
  rw [slice_joinFields_skip _ _ 1 _ _ (by decide) (by decide)]
  rw [slice_joinFields_head _ _ _ _ (by decide) (by decide)]
  decide

/-- The block-count field of a FileControl record (positions 7-12):
`Math.ceil((5 + transactions.length) / 10)`, zero-padded to 6 digits. -/
theorem slice_fileControl_blockCount (cfg : NACHAConfig)
    (txs : List ACHTransaction) :
    slice (generateFileControl cfg txs) 7 6
      = padLeft (toString ((5 + txs.length + 9) / 10)) 6 '0' := by
  simp only [generateFileControl]
  rw [slice_joinFields_skip _ _ 1 _ _ (by decide) (by decide)]
  rw [slice_joinFields_skip _ _ 6 _ _ (by simp) (by decide)]
  rw [slice_joinFields_head _ _ _ _ (by decide) (by simp)]

/-- The entry-count field of a FileControl record (positions 13-20). -/
theorem slice_fileControl_entryCount (cfg : NACHAConfig)
    (txs : List ACHTransaction) :
    slice (generateFileControl cfg txs) 13 8
      = padLeft (toString txs.length) 8 '0' := by
  simp only [generateFileControl]
  rw [slice_joinFields_skip _ _ 1 _ _ (by decide) (by decide)]
  rw [slice_joinFields_skip _ _ 6 _ _ (by simp) (by decide)]
  rw [slice_joinFields_skip _ _ 6 _ _ (by simp) (by decide)]
  rw [slice_joinFields_head _ _ _ _ (by decide) (by simp)]

/-- The entry-hash field of a FileControl record (positions 21-30): the
sum over all transactions of the first-eight-digit prefixes of both
routing numbers, reduced mod 10^10, zero-padded to 10 digits. -/
theorem slice_fileControl_hash (cfg : NACHAConfig)
    (txs : List ACHTransaction) :
    slice (generateFileControl cfg txs) 21 10
      = padLeft (toString ((txs.map (fun tx =>
          parseIntDigits (strSub tx.drRoutingNumber 0 8)
            + parseIntDigits (strSub tx.crRoutingNumber 0 8))).sum
          % 10000000000)) 10 '0' := by
  simp only [generateFileControl]
  rw [slice_joinFields_skip _ _ 1 _ _ (by decide) (by decide)]
  rw [slice_joinFields_skip _ _ 6 _ _ (by simp) (by decide)]
  rw [slice_joinFields_skip _ _ 6 _ _ (by simp) (by decide)]
  rw [slice_joinFields_skip _ _ 8 _ _ (by simp) (by decide)]
  rw [slice_joinFields_head _ _ _ _ (by decide) (by simp)]
  rw [foldl_hash_fileControl, Nat.zero_add]

/-- The debit-total field of a FileControl record (positions 31-42). -/
theorem slice_fileControl_debit (cfg : NACHAConfig)
    (txs : List ACHTransaction) :
    slice (generateFileControl cfg txs) 31 12
      = padLeft (toString (totalAmountCents txs)) 12 '0' := by
  simp only [generateFileControl]
  rw [slice_joinFields_skip _ _ 1 _ _ (by decide) (by decide)]
  rw [slice_joinFields_skip _ _ 6 _ _ (by simp) (by decide)]
  rw [slice_joinFields_skip _ _ 6 _ _ (by simp) (by decide)]
  rw [slice_joinFields_skip _ _ 8 _ _ (by simp) (by decide)]
  rw [slice_joinFields_skip _ _ 10 _ _ (by simp) (by decide)]
  rw [slice_joinFields_head _ _ _ _ (by decide) (by simp)]

/-- The credit-total field of a FileControl record (positions 43-54):
the same aggregate as the debit-total field. -/
theorem slice_fileControl_credit (cfg : NACHAConfig)
    (txs : List ACHTransaction) :
    slice (generateFileControl cfg txs) 43 12
      = padLeft (toString (totalAmountCents txs)) 12 '0' := by
  simp only [generateFileControl]
  rw [slice_joinFields_skip _ _ 1 _ _ (by decide) (by decide)]
  rw [slice_joinFields_skip _ _ 6 _ _ (by simp) (by decide)]
  rw [slice_joinFields_skip _ _ 6 _ _ (by simp) (by decide)]
  rw [slice_joinFields_skip _ _ 8 _ _ (by simp) (by decide)]
  rw [slice_joinFields_skip _ _ 10 _ _ (by simp) (by decide)]
  rw [slice_joinFields_skip _ _ 12 _ _ (by simp) (by decide)]
  rw [slice_joinFields_head _ _ _ _ (by decide) (by simp)]

/-! ## Rounding arithmetic -/

theorem jsRound_intCast (k : ℤ) : jsRound (k : ℚ) = k := by
  unfold jsRound
  rw [add_comm, Int.floor_add_int]
  norm_num

theorem entryAmountCents_of_cent_exact (tx : ACHTransaction) (k : ℤ)
    (h : tx.amount = (k : ℚ) / 100) : entryAmountCents tx = k := by
  unfold entryAmountCents
  rw [h, div_mul_cancel₀ _ (by norm_num : (100 : ℚ) ≠ 0)]
  exact jsRound_intCast k

theorem sum_amounts_of_cent_exact (txs : List ACHTransaction)
    (hcent : ∀ tx ∈ txs, ∃ k : ℤ, tx.amount = (k : ℚ) / 100) :
    ∃ K : ℤ, (txs.map ACHTransaction.amount).sum = (K : ℚ) / 100 ∧
      (txs.map entryAmountCents).sum = K := by
  induction txs with
  | nil => exact ⟨0, by simp, by simp⟩
  | cons tx rest ih =>
    obtain ⟨k, hk⟩ := hcent tx (List.mem_cons_self ..)
    obtain ⟨K, hK1, hK2⟩ := ih (fun t ht => hcent t (List.mem_cons_of_mem _ ht))
    refine ⟨k + K, ?_, ?_⟩
    · push_cast
      rw [List.map_cons, List.sum_cons, hk, hK1, div_add_div_same]
    · rw [List.map_cons, List.sum_cons, hK2,
        entryAmountCents_of_cent_exact tx k hk]

/-- When every amount is a whole number of cents, summing in currency
units and rounding once agrees with summing the per-entry rounded
amounts. -/
theorem totalAmountCents_of_cent_exact (txs : List ACHTransaction)
    (hcent : ∀ tx ∈ txs, ∃ k : ℤ, tx.amount = (k : ℚ) / 100) :
    totalAmountCents txs = (txs.map entryAmountCents).sum := by
  obtain ⟨K, hK1, hK2⟩ := sum_amounts_of_cent_exact txs hcent
  rw [totalAmountCents_eq, hK1,
    div_mul_cancel₀ _ (by norm_num : (100 : ℚ) ≠ 0), jsRound_intCast, hK2]

/-! ## Concrete amount evaluations -/

theorem totalAmountCents_sample : totalAmountCents [sampleTx] = 10000 := by
  rw [totalAmountCents_eq]
  norm_num [sampleTx, jsRound]

theorem entryAmountCents_fracTx : entryAmountCents fracTx = 20 := by
  norm_num [entryAmountCents, fracTx, sampleTx, jsRound]

theorem totalAmountCents_fracTxs : totalAmountCents [fracTx, fracTx] = 41 := by
  rw [totalAmountCents_eq]
  norm_num [fracTx, sampleTx, jsRound]

/-! ## Claim C1 (BatchControl totals) -/

/-- C1 (code bug): for a credit (`'CR'`) file with one transaction of
100.00, `generateBatchControl` places the aggregate amount 10000 cents
in the debit-total field (positions 20-31) and zero in the credit-total
field (positions 32-43); the side-appropriate placement stated by the
specification would require the reverse.  The implementation ignores the
file-type flag when filling the two total fields. -/
theorem batchControl_CR_total_in_debit_field :
    slice (generateBatchControl sampleCfg [sampleTx] .CR) 20 12
        = "000000010000" ∧
    slice (generateBatchControl sampleCfg [sampleTx] .CR) 32 12
        = "000000000000" := by
  constructor
  · rw [slice_batchControl_debit, totalAmountCents_sample]
    decide
  · rw [slice_batchControl_credit]
    decide

/-! ## Claim C5 (totals versus per-entry rounding) -/

/-- C5 counterexample: with two transactions of 0.204 currency units
each, the per-entry encoded amounts are 20 cents each (sum 40), but the
BatchControl total field encodes 41 cents: the implementation sums the
amounts in currency units and rounds once, which differs from the sum of
the individually rounded amounts. -/
theorem batchControl_total_ne_sum_of_entries :
    ([fracTx, fracTx].map entryAmountCents).sum = 40 ∧
    slice (generateBatchControl sampleCfg [fracTx, fracTx] .DR) 20 12
        = "000000000041" ∧
    slice (generateBatchControl sampleCfg [fracTx, fracTx] .DR) 20 12
        ≠ padLeft (toString (([fracTx, fracTx].map entryAmountCents).sum)) 12 '0' := by
  refine ⟨?_, ?_, ?_⟩
  · simp [entryAmountCents_fracTx]
  · rw [slice_batchControl_debit, totalAmountCents_fracTxs]
    decide
  · rw [slice_batchControl_debit, totalAmountCents_fracTxs]
    simp only [List.map_cons, List.map_nil, List.sum_cons, List.sum_nil,
      entryAmountCents_fracTx]
    decide

/-- C5 (amended): for transaction lists whose amounts are whole numbers
of cents, the totals encoded in the BatchControl and FileControl records
equal the sum of the per-entry encoded amounts. -/
theorem totals_eq_sum_of_entries_of_cent_exact (cfg : NACHAConfig)
    (txs : List ACHTransaction) (ft : FileType)
    (hcent : ∀ tx ∈ txs, ∃ k : ℤ, tx.amount = (k : ℚ) / 100) :
    slice (generateBatchControl cfg txs ft) 20 12
        = padLeft (toString ((txs.map entryAmountCents).sum)) 12 '0' ∧
    slice (generateFileControl cfg txs) 31 12
        = padLeft (toString ((txs.map entryAmountCents).sum)) 12 '0' ∧
    slice (generateFileControl cfg txs) 43 12
        = padLeft (toString ((txs.map entryAmountCents).sum)) 12 '0' := by
  rw [slice_batchControl_debit, slice_fileControl_debit, slice_fileControl_credit,
    totalAmountCents_of_cent_exact txs hcent]
  exact ⟨rfl, rfl, rfl⟩

/-- Witness for `totals_eq_sum_of_entries_of_cent_exact` at a
one-transaction list with amount 1.23. -/
theorem totals_eq_sum_of_entries_witness :
    slice (generateBatchControl sampleCfg [centTx] .DR) 20 12
        = padLeft (toString (([centTx].map entryAmountCents).sum)) 12 '0' ∧
    slice (generateFileControl sampleCfg [centTx]) 31 12
        = padLeft (toString (([centTx].map entryAmountCents).sum)) 12 '0' ∧
    slice (generateFileControl sampleCfg [centTx]) 43 12
        = padLeft (toString (([centTx].map entryAmountCents).sum)) 12 '0' :=
  totals_eq_sum_of_entries_of_cent_exact sampleCfg [centTx] .DR
    (by
      intro tx htx
      rw [List.mem_singleton] at htx
      subst htx
      exact ⟨123, rfl⟩)

/-! ## Claim C6 (FileControl fields) -/

/-- C6: the FileControl record encodes batch count 1, block count
`ceil((5 + n) / 10)`, entry count `n`, entry hash `(Σ (first 8 digits of
debit routing + first 8 digits of credit routing)) mod 10^10`, and the
same aggregate minor-unit total in both the debit-total and credit-total
fields. -/
theorem fileControl_record_fields (cfg : NACHAConfig)
    (txs : List ACHTransaction)
    (hroute : ∀ tx ∈ txs,
      (tx.drRoutingNumber.length = 9 ∧ ∀ c ∈ tx.drRoutingNumber.data, c.isDigit) ∧
      (tx.crRoutingNumber.length = 9 ∧ ∀ c ∈ tx.crRoutingNumber.data, c.isDigit)) :
    slice (generateFileControl cfg txs) 1 6 = "000001" ∧
    slice (generateFileControl cfg txs) 7 6
        = padLeft (toString ((5 + txs.length + 9) / 10)) 6 '0' ∧
    slice (generateFileControl cfg txs) 13 8
        = padLeft (toString txs.length) 8 '0' ∧
    slice (generateFileControl cfg txs) 21 10
        = padLeft (toString ((txs.map (fun tx =>
            parseIntDigits (strSub tx.drRoutingNumber 0 8)
              + parseIntDigits (strSub tx.crRoutingNumber 0 8))).sum
            % 10000000000)) 10 '0' ∧
    slice (generateFileControl cfg txs) 31 12
        = padLeft (toString (jsRound ((txs.map ACHTransaction.amount).sum * 100))) 12 '0' ∧
    slice (generateFileControl cfg txs) 43 12
        = slice (generateFileControl cfg txs) 31 12 :=
  ⟨slice_fileControl_batchCount cfg txs,
   slice_fileControl_blockCount cfg txs,
   slice_fileControl_entryCount cfg txs,
   slice_fileControl_hash cfg txs,
   (slice_fileControl_debit cfg txs).trans (by rw [totalAmountCents_eq]),
   (slice_fileControl_credit cfg txs).trans (slice_fileControl_debit cfg txs).symm⟩

/-- Witness for `fileControl_record_fields` at a concrete
one-transaction list. -/
theorem fileControl_record_fields_witness :
    slice (generateFileControl sampleCfg [sampleTx]) 1 6 = "000001" ∧
    slice (generateFileControl sampleCfg [sampleTx]) 7 6
        = padLeft (toString ((5 + [sampleTx].length + 9) / 10)) 6 '0' ∧
    slice (generateFileControl sampleCfg [sampleTx]) 13 8
        = padLeft (toString [sampleTx].length) 8 '0' ∧
    slice (generateFileControl sampleCfg [sampleTx]) 21 10
        = padLeft (toString ((([sampleTx]).map (fun tx =>
            parseIntDigits (strSub tx.drRoutingNumber 0 8)
              + parseIntDigits (strSub tx.crRoutingNumber 0 8))).sum
            % 10000000000)) 10 '0' ∧
    slice (generateFileControl sampleCfg [sampleTx]) 31 12
        = padLeft (toString (jsRound ((([sampleTx]).map ACHTransaction.amount).sum * 100))) 12 '0' ∧
    slice (generateFileControl sampleCfg [sampleTx]) 43 12
        = slice (generateFileControl sampleCfg [sampleTx]) 31 12 :=
  fileControl_record_fields sampleCfg [sampleTx] (by decide)

/-! ## Envelope parsing -/

theorem splitChar_of_not_mem (sep : Char) (l : List Char) (h : sep ∉ l) :
    splitChar sep l = [l] := by
  induction l with
  | nil => rfl
  | cons c cs ih =>
    have hc : ¬ (c = sep) := fun hh => h (hh ▸ List.mem_cons_self ..)
    have hcs : sep ∉ cs := fun hm => h (List.mem_cons_of_mem _ hm)
    rw [splitChar, if_neg hc, ih hcs]

theorem splitChar_append_sep (sep : Char) (l₁ l₂ : List Char) (h : sep ∉ l₁) :
    splitChar sep (l₁ ++ sep :: l₂) = l₁ :: splitChar sep l₂ := by
  induction l₁ with
  | nil =>
    rw [List.nil_append, splitChar, if_pos rfl]
  | cons c cs ih =>
    have hc : ¬ (c = sep) := fun hh => h (hh ▸ List.mem_cons_self ..)
    have hcs : sep ∉ cs := fun hm => h (List.mem_cons_of_mem _ hm)
    rw [List.cons_append, splitChar, if_neg hc, ih hcs]

/-- The character-list decomposition of a sealed envelope. -/
theorem envelope_data (iv ct : String) :
    ("FILE:" ++ iv ++ ":" ++ ct).data
      = ['F', 'I', 'L', 'E'] ++ (':' :: (iv.data ++ (':' :: ct.data))) := by
  simp [String.data_append,
    show "FILE:".data = ['F', 'I', 'L', 'E', ':'] from rfl,
    show ":".data = [':'] from rfl]

theorem jsStartsWith_of_data_append (s pre : String) (r : List Char)
    (h : s.data = pre.data ++ r) : jsStartsWith s pre = true := by
  unfold jsStartsWith
  rw [h]
  have ht : List.take pre.length (pre.data ++ r) = pre.data := List.take_left' rfl
  rw [ht]
  exact beq_self_eq_true _

theorem jsStartsWith_envelope (iv ct : String) :
    jsStartsWith ("FILE:" ++ iv ++ ":" ++ ct) "FILE:" = true := by
  refine jsStartsWith_of_data_append _ _ (iv.data ++ (':' :: ct.data)) ?_
  rw [envelope_data]
  rfl

/-- Splitting a sealed envelope on `':'` recovers the marker, the IV and
the ciphertext, provided the latter two are colon-free. -/
theorem jsSplit_envelope (iv ct : String) (hiv : ':' ∉ iv.data)
    (hct : ':' ∉ ct.data) :
    jsSplit ("FILE:" ++ iv ++ ":" ++ ct) ':' = ["FILE", iv, ct] := by
  unfold jsSplit
  rw [envelope_data, splitChar_append_sep _ _ _ (by decide),
    splitChar_append_sep _ _ _ hiv, splitChar_of_not_mem _ _ hct]
  simp

/-! ## Claim C3 (seal/open round trip) -/

/-- C3 counterexample: sealing the empty plaintext and opening the
result fails with `Invalid file data structure` — the JavaScript
falsiness check `!fileData.content` rejects an empty content string —
even though the toy primitives are exact on this envelope (the cipher
inverts, the serializer round-trips, and the IV and ciphertext are
non-empty and colon-free). -/
theorem seal_open_fails_on_empty_plaintext :
    toyPrims.dec toyPrims.ivHex
        (toyPrims.enc (toyPrims.serialize (nachaPayload toyPrims "" [] "2024-03-15" "T0")))
      = some (toyPrims.serialize (nachaPayload toyPrims "" [] "2024-03-15" "T0")) ∧
    toyPrims.deserialize (toyPrims.serialize (nachaPayload toyPrims "" [] "2024-03-15" "T0"))
      = some (nachaPayload toyPrims "" [] "2024-03-15" "T0") ∧
    (':' ∉ toyPrims.ivHex.data ∧ toyPrims.ivHex ≠ "") ∧
    (':' ∉ (toyPrims.enc (toyPrims.serialize (nachaPayload toyPrims "" [] "2024-03-15" "T0"))).data ∧
      toyPrims.enc (toyPrims.serialize (nachaPayload toyPrims "" [] "2024-03-15" "T0")) ≠ "") ∧
    decryptNACHAFile toyPrims (encryptNACHAFile toyPrims "" [] "2024-03-15" "T0")
      = .error "File decryption failed: Invalid file data structure" :=
  ⟨by decide, by decide, ⟨by decide, by decide⟩, ⟨by decide, by decide⟩, rfl⟩

/-- C3 (amended): opening the envelope produced by sealing a non-empty
plaintext `x` succeeds, returns content `x`, and reports
`integrityValid = true`, whenever the cipher pair inverts on this
envelope, the serializer round-trips on this payload, and the IV and
ciphertext are non-empty and colon-free (as the hex encodings of the
real primitives are). -/
theorem seal_open_roundtrip (P : CryptoPrims) (x : String)
    (ids : List String) (eff ts : String)
    (hx : x ≠ "")
    (hdec : P.dec P.ivHex (P.enc (P.serialize (nachaPayload P x ids eff ts)))
      = some (P.serialize (nachaPayload P x ids eff ts)))
    (hdeser : P.deserialize (P.serialize (nachaPayload P x ids eff ts))
      = some (nachaPayload P x ids eff ts))
    (hiv1 : ':' ∉ P.ivHex.data) (hiv2 : P.ivHex ≠ "")
    (hct1 : ':' ∉ (P.enc (P.serialize (nachaPayload P x ids eff ts))).data)
    (hct2 : P.enc (P.serialize (nachaPayload P x ids eff ts)) ≠ "") :
    decryptNACHAFile P (encryptNACHAFile P x ids eff ts)
      = .ok ⟨x, nachaMetadataFor P x ids eff, true⟩ := by
  have hfd : decryptFileContent P (encryptNACHAFile P x ids eff ts)
      = .ok (nachaPayload P x ids eff ts) := by
    show decryptFileContent P
      ("FILE:" ++ P.ivHex ++ ":" ++ P.enc (P.serialize (nachaPayload P x ids eff ts))) = _
    unfold decryptFileContent
    rw [jsStartsWith_envelope, if_pos rfl,
      jsSplit_envelope _ _ hiv1 hct1]
    simp only [List.get?, Option.getD]
    rw [if_neg (by simp [hiv2, hct2]), hdec]
    simp only [hdeser]
    simp only [nachaPayload]
    rw [if_neg hx]
  unfold decryptNACHAFile
  rw [hfd]
  simp [nachaPayload, nachaMetadataFor]

/-- Witness for `seal_open_roundtrip` with the toy primitives and
plaintext `"PLAIN"`. -/
theorem seal_open_roundtrip_witness :
    decryptNACHAFile toyPrimsW (encryptNACHAFile toyPrimsW "PLAIN" ["t1"] "2024-03-15" "T1")
      = .ok ⟨"PLAIN", nachaMetadataFor toyPrimsW "PLAIN" ["t1"] "2024-03-15", true⟩ :=
  seal_open_roundtrip toyPrimsW "PLAIN" ["t1"] "2024-03-15" "T1"
    (by decide) (by decide) (by decide) (by decide) (by decide) (by decide)
    (by decide)

/-! ## Claim C9 (plain content is never decrypted) -/

/-- C9: an input without the `FILE:` marker is treated as plain content:
the complete validator reports `isEncrypted = false` and validates the
string structurally as plaintext, its result does not depend on the
configured decryption primitives at all, `getNACHAFileContent` returns
the input unchanged, and the envelope-open logic rejects the input with
`Invalid encrypted file format` rather than attempting decryption. -/
theorem nonEnvelope_validated_as_plain (encSvc otherSvc : Option CryptoPrims)
    (P : CryptoPrims) (s : String)
    (h : jsStartsWith s "FILE:" = false) :
    (validateNACHAFileComplete encSvc s).isEncrypted = false ∧
    (validateNACHAFileComplete encSvc s).isValid = (validateNACHAFile s).isValid ∧
    (validateNACHAFileComplete encSvc s).errors = (validateNACHAFile s).errors ∧
    validateNACHAFileComplete encSvc s = validateNACHAFileComplete otherSvc s ∧
    getNACHAFileContent encSvc s = .ok s ∧
    decryptFileContent P s
      = .error "File decryption failed: Invalid encrypted file format" := by
  refine ⟨?_, ?_, ?_, ?_, ?_, ?_⟩
  · simp [validateNACHAFileComplete, h]
  · simp [validateNACHAFileComplete, h]
  · simp [validateNACHAFileComplete, h]
  · simp [validateNACHAFileComplete, h]
  · cases encSvc <;> simp [getNACHAFileContent, h]
  · simp [decryptFileContent, h]

/-- Witness for `nonEnvelope_validated_as_plain` at the plain string
`"1HELLO"`, with no encryption service on one side and the toy
primitives on the other. -/
theorem nonEnvelope_validated_as_plain_witness :
    (validateNACHAFileComplete none "1HELLO").isEncrypted = false ∧
    (validateNACHAFileComplete none "1HELLO").isValid
      = (validateNACHAFile "1HELLO").isValid ∧
    (validateNACHAFileComplete none "1HELLO").errors
      = (validateNACHAFile "1HELLO").errors ∧
    validateNACHAFileComplete none "1HELLO"
      = validateNACHAFileComplete (some toyPrims) "1HELLO" ∧
    getNACHAFileContent none "1HELLO" = .ok "1HELLO" ∧
    decryptFileContent toyPrims "1HELLO"
      = .error "File decryption failed: Invalid encrypted file format" :=
  nonEnvelope_validated_as_plain none (some toyPrims) toyPrims "1HELLO" (by decide)

/-! ## Claim C10 (plain content reported as integrity-checked) -/

/-- C10: for any input without the `FILE:` marker, the complete
validator reports `integrityValid = true` and an empty metadata mapping
(`none` models the TypeScript `{}`), although no checksum was computed
or compared on this path — indistinguishable from a verified encrypted
input's `integrityValid = true`. -/
theorem plain_input_reports_integrity (encSvc : Option CryptoPrims) (s : String)
    (h : jsStartsWith s "FILE:" = false) :
    (validateNACHAFileComplete encSvc s).integrityValid = some true ∧
    (validateNACHAFileComplete encSvc s).metadata = none := by
  simp [validateNACHAFileComplete, h]

/-- Witness for `plain_input_reports_integrity` at `"PLAINTEXT"`. -/
theorem plain_input_reports_integrity_witness :
    (validateNACHAFileComplete none "PLAINTEXT").integrityValid = some true ∧
    (validateNACHAFileComplete none "PLAINTEXT").metadata = none :=
  plain_input_reports_integrity none "PLAINTEXT" (by decide)

/-! ## Claim C4 (nth-weekday holiday rules) -/

/-- C4 (code bug): the holiday computations deviate from the stated
nth-weekday rules.  The guard `if (firstMonday.date() > 1)` misfires
whenever the `day()` setter lands forward inside the month on a
day-of-month greater than 1: in 2023 (January 1 a Sunday, November 1 a
Wednesday) the code yields 2023-01-23 for MLK day and 2023-11-30 for
Thanksgiving, while the stated rules give 2023-01-16 (3rd Monday) and
2023-11-23 (4th Thursday); in 2026 (May 31 a Sunday) the code yields
2026-06-01 for Memorial Day, while the last Monday of May is
2026-05-25. -/
theorem holiday_rules_mismatch :
    getMLKDay 2023 = "2023-01-23" ∧
    formatDate (nthWeekdayOfMonth 2023 1 1 3) = "2023-01-16" ∧
    getThanksgiving 2023 = "2023-11-30" ∧
    formatDate (nthWeekdayOfMonth 2023 11 4 4) = "2023-11-23" ∧
    getMemorialDay 2026 = "2026-06-01" ∧
    formatDate (lastMondayOfMay 2026) = "2026-05-25" ∧
    getMLKDay 2023 ≠ formatDate (nthWeekdayOfMonth 2023 1 1 3) := by
  decide

/-! ## Claims C7 and C8 (business-day search and counting) -/

theorem isBusinessDay_getNextBusinessDay (H : List Int) (z : Int) :
    isBusinessDay H (getNextBusinessDay H z) = true := by
  unfold getNextBusinessDay
  exact Nat.find_spec (exists_business_above H z)

theorem lt_getNextBusinessDay (H : List Int) (z : Int) :
    z < getNextBusinessDay H z := by
  unfold getNextBusinessDay
  omega

theorem isBusinessDay_getPreviousBusinessDay (H : List Int) (z : Int) :
    isBusinessDay H (getPreviousBusinessDay H z) = true := by
  unfold getPreviousBusinessDay
  exact Nat.find_spec (exists_business_below H z)

theorem getPreviousBusinessDay_lt (H : List Int) (z : Int) :
    getPreviousBusinessDay H z < z := by
  unfold getPreviousBusinessDay
  omega

theorem le_addBusinessDays (H : List Int) (n : Nat) :
    ∀ z : Int, z ≤ addBusinessDays H z n := by
  induction n with
  | zero => intro z; exact le_refl z
  | succ n ih =>
    intro z
    have h1 : addBusinessDays H z (n + 1)
        = addBusinessDays H (getNextBusinessDay H z) n := rfl
    rw [h1]
    exact le_of_lt (lt_of_lt_of_le (lt_getNextBusinessDay H z)
      (ih (getNextBusinessDay H z)))

theorem isBusinessDay_addBusinessDays (H : List Int) (n : Nat) :
    ∀ z : Int, isBusinessDay H (addBusinessDays H z (n + 1)) = true := by
  induction n with
  | zero => intro z; exact isBusinessDay_getNextBusinessDay H z
  | succ n ih =>
    intro z
    have h1 : addBusinessDays H z (n + 2)
        = addBusinessDays H (getNextBusinessDay H z) (n + 1) := rfl
    rw [h1]
    exact ih (getNextBusinessDay H z)

theorem countBusinessDays_append (H : List Int) (a b c : Int)
    (hab : a ≤ b) (hbc : b ≤ c) :
    countBusinessDays H a c = countBusinessDays H a b + countBusinessDays H b c := by
  unfold countBusinessDays
  have hsplit : (c - a).toNat = (b - a).toNat + (c - b).toNat := by omega
  rw [hsplit, List.range_add, List.map_append, List.countP_append]
  congr 1
  rw [List.map_map]
  refine congrArg _ (List.map_congr_left ?_)
  intro k _
  show a + 1 + (((b - a).toNat + k : Nat) : Int) = b + 1 + (k : Int)
  push_cast
  omega

theorem countBusinessDays_next (H : List Int) (z : Int) :
    countBusinessDays H z (getNextBusinessDay H z) = 1 := by
  unfold countBusinessDays getNextBusinessDay
  have ht : (z + 1 + (Nat.find (exists_business_above H z) : Int) - z).toNat
      = Nat.find (exists_business_above H z) + 1 := by omega
  rw [ht, List.range_succ, List.map_append, List.countP_append]
  have h1 : ((List.range (Nat.find (exists_business_above H z))).map
      (fun (k : Nat) => z + 1 + (k : Int))).countP (fun e => isBusinessDay H e) = 0 := by
    rw [List.countP_eq_zero]
    intro e he
    obtain ⟨k, hk, rfl⟩ := List.mem_map.mp he
    have := Nat.find_min (exists_business_above H z) (List.mem_range.mp hk)
    simpa using this
  rw [h1]
  simp [Nat.find_spec (exists_business_above H z)]

/-- C7: for every date `z` and every `n`, the number of business days
strictly after `z` and up to and including `addBusinessDays z n` is
exactly `n` (stated over the service's holiday set for an arbitrary
construction year). -/
theorem addBusinessDays_count (year z : Int) (n : Nat) :
    countBusinessDays (federalHolidays year) z
      (addBusinessDays (federalHolidays year) z n) = n := by
  suffices h : ∀ (H : List Int) (z : Int),
      countBusinessDays H z (addBusinessDays H z n) = n from h _ z
  clear z
  induction n with
  | zero =>
    intro H z
    simp [addBusinessDays, countBusinessDays]
  | succ n ih =>
    intro H z
    have h1 : addBusinessDays H z (n + 1)
        = addBusinessDays H (getNextBusinessDay H z) n := rfl
    rw [h1,
      countBusinessDays_append H z (getNextBusinessDay H z) _
        (le_of_lt (lt_getNextBusinessDay H z))
        (le_addBusinessDays H n (getNextBusinessDay H z)),
      countBusinessDays_next, ih]
    omega

/-- C8: the calendar operations are total: over the service's 10-element
holiday set the skip-forward and skip-backward searches always find a
business day (strictly after, respectively strictly before, the input),
and `addBusinessDays` with a positive count lands on a business day. -/
theorem calendar_ops_total (year z : Int) (n : Nat) :
    (federalHolidays year).length = 10 ∧
    z < getNextBusinessDay (federalHolidays year) z ∧
    isBusinessDay (federalHolidays year)
      (getNextBusinessDay (federalHolidays year) z) = true ∧
    getPreviousBusinessDay (federalHolidays year) z < z ∧
    isBusinessDay (federalHolidays year)
      (getPreviousBusinessDay (federalHolidays year) z) = true ∧
    isBusinessDay (federalHolidays year)
      (addBusinessDays (federalHolidays year) z (n + 1)) = true :=
  ⟨rfl,
   lt_getNextBusinessDay ..,
   isBusinessDay_getNextBusinessDay ..,
   getPreviousBusinessDay_lt ..,
   isBusinessDay_getPreviousBusinessDay ..,
   isBusinessDay_addBusinessDays (federalHolidays year) n z⟩

end Bizpaysol
